import Mathlib

/-!
Verification development for the NRI NOW stealth scraper
(`src/nrinow/stealth_scraper.py`).

The Python code is shallowly embedded: BeautifulSoup DOM queries are
modelled by record types whose fields hold exactly the data the scraper
reads from the DOM (texts of selected elements, attribute values, lists
of matched elements, presence flags), and each scraper method becomes a
Lean function over those records.  String operations (`startswith`,
`in`, `lower`, `strip`, `split`, `int(...)`, `re.findall`) are
implemented over `List Char` so that every definition is executable and
reduces by `rfl`/`decide`.
-/

namespace StealthScraper

/-! ### String helpers (models of the Python string operations used) -/

/-- Does `hay` start with the pattern `p`?  Model of Python `str.startswith`
(first argument is the pattern). -/
def charsStart : List Char → List Char → Bool
  | [], _ => true
  | _ :: _, [] => false
  | p :: ps, c :: cs => p == c && charsStart ps cs

/-- Model of Python `s.startswith(p)`. -/
def strStarts (s p : String) : Bool :=
  charsStart p.data s.data

/-- Model of Python `s.endswith(p)`. -/
def strEnds (s p : String) : Bool :=
  charsStart p.data.reverse s.data.reverse

/-- Does `hay` contain `needle` as a contiguous sublist?
Model of Python `needle in hay` for strings. -/
def charsContain (needle : List Char) : List Char → Bool
  | [] => needle.isEmpty
  | c :: t => charsStart needle (c :: t) || charsContain needle t

/-- Model of Python `needle in hay` for strings. -/
def strContains (hay needle : String) : Bool :=
  charsContain needle.data hay.data

/-- Model of Python `str.lower` (ASCII case folding suffices for the
fixed token sets compared in the scraper). -/
def strLower (s : String) : String :=
  String.mk (s.data.map Char.toLower)

/-- Model of Python `str.strip` (drop whitespace on both ends). -/
def strStrip (s : String) : String :=
  String.mk (((s.data.dropWhile Char.isWhitespace).reverse.dropWhile
      Char.isWhitespace).reverse)

/-- Accumulate the words of Python `str.split()` (split on whitespace
runs, dropping empty pieces); `cur` holds the reversed current word. -/
def wordsAux (cur : List Char) : List Char → List (List Char)
  | [] => match cur with
    | [] => []
    | _ :: _ => [cur.reverse]
  | c :: t =>
    if c.isWhitespace then
      match cur with
      | [] => wordsAux [] t
      | _ :: _ => cur.reverse :: wordsAux [] t
    else wordsAux (c :: cur) t

/-- Model of Python `str.split()` with no argument. -/
def wordsOf (s : String) : List String :=
  (wordsAux [] s.data).map String.mk

/-- Parse a non-empty all-digit run as a number; any other character
makes the whole parse fail (as Python `int` does). -/
def parseDigitsAux : List Char → Nat → Option Nat
  | [], acc => some acc
  | c :: t, acc =>
    if c.isDigit then parseDigitsAux t (acc * 10 + (c.toNat - 48)) else none

/-- Model of Python `int(s)` on strings: optional sign, then decimal
digits, with surrounding whitespace allowed; anything else raises
`ValueError`, modelled as `none`. -/
def pyInt (s : String) : Option Int :=
  match (strStrip s).data with
  | [] => none
  | '-' :: rest =>
    match rest with
    | [] => none
    | _ :: _ => (parseDigitsAux rest 0).map (fun n => -(n : Int))
  | '+' :: rest =>
    match rest with
    | [] => none
    | _ :: _ => (parseDigitsAux rest 0).map (fun n => (n : Int))
  | l => (parseDigitsAux l 0).map (fun n => (n : Int))

/-- Value of a digit run read from the front of `l`. -/
def digitRunVal (l : List Char) : Nat :=
  (l.takeWhile Char.isDigit).foldl (fun a c => a * 10 + (c.toNat - 48)) 0

/-- Model of `re.findall(r"\d+", s)[0]` converted with `int`: the first
maximal digit run in `s`, or `none` when `s` has no digit. -/
def firstNumber : List Char → Option Nat
  | [] => none
  | c :: t => if c.isDigit then some (digitRunVal (c :: t)) else firstNumber t

/-- Replace every non-overlapping occurrence of `old` in the haystack
by `new`, left to right, as Python `str.replace` does.  The `Nat`
argument is fuel bounding the recursion; it is called with the haystack
length, which at least one consumed character per step never
exhausts. -/
def charsReplace (old new : List Char) : Nat → List Char → List Char
  | _, [] => []
  | 0, hay => hay
  | fuel + 1, c :: t =>
    if charsStart old (c :: t) then
      match old with
      | [] => c :: t
      | _ :: os => new ++ charsReplace old new fuel (t.drop os.length)
    else c :: charsReplace old new fuel t

/-- Model of Python `s.replace(old, new)` for a non-empty `old`. -/
def strReplace (s old new : String) : String :=
  String.mk (charsReplace old.data new.data s.data.length s.data)

/-- Model of Python `a or b` on optional strings, where an empty string
is falsy (`img.get('src') or img.get('data-src')`). -/
def pyOr (a b : Option String) : Option String :=
  match a with
  | some s => if s = "" then b else some s
  | none => b

/-! ### Comment extraction (`_extract_comments`, `_get_comment_count`) -/

/-- The `type` field of a comment dictionary. -/
inductive CommentKind where
  | comment
  | reply
  | metadata
  deriving DecidableEq, Repr

/-- One comment dictionary as built by `_extract_comments`.  Metadata
sentinel records carry no `comment_id` key, modelled as `none`. -/
structure CommentRecord where
  text : String
  author : String
  date : String
  length : Nat
  kind : CommentKind
  commentId : Option String
  deriving DecidableEq, Repr

/-- One `li.comment` element of the comment list, holding exactly the
data `_extract_comments` reads from it: the `id` attribute (defaulted to
`""` when absent, as `comment_item.get('id', '')` does), whether an
`article` child exists, the `cite` text, the `time` text, the text of
the `div.comment-content` child (absent when that div is absent), and
whether the item sits inside a `ul.children` ancestor. -/
structure CommentItem where
  rawId : String
  hasArticle : Bool
  author : Option String
  date : Option String
  content : Option String
  isReply : Bool
  deriving DecidableEq, Repr

/-- The comment-related parts of an article DOM: text of
`h4.td-comments-title` when present, text of the generic comment-meta
element (`_get_comment_count` method 3) when present, presence of the
`div` with class and id `comments`, presence of its `ol.comment-list`,
and the `li.comment` items found recursively in that list. -/
structure CommentsDom where
  commentsTitle : Option String
  commentMeta : Option String
  hasSection : Bool
  hasList : Bool
  items : List CommentItem
  deriving DecidableEq, Repr

/-- Fallback count of `_get_comment_count` (method 3): first number in
the generic comment-meta text, else 0. -/
def commentCountMeta (d : CommentsDom) : Nat :=
  match d.commentMeta with
  | some t => (firstNumber t.data).getD 0
  | none => 0

/-- Methods 2 and 3 of `_get_comment_count`: count the `li.comment`
items when the comments section and list exist, else fall back to the
generic meta text. -/
def commentCountItems (d : CommentsDom) : Nat :=
  if d.hasSection && d.hasList then d.items.length else commentCountMeta d

/-- Model of `_get_comment_count`: first number of the
`td-comments-title` text when present, else count the list items, else
parse the generic meta element, else 0. -/
def getCommentCount (d : CommentsDom) : Nat :=
  match d.commentsTitle with
  | some t =>
    match firstNumber t.data with
    | some n => n
    | none => commentCountItems d
  | none => commentCountItems d

/-- The phrases whose presence (in lowercased text) discards a comment
candidate in `_extract_comments`. -/
def commentSkipPhrases : List String :=
  ["leave a reply", "cancel reply", "comment:", "your email"]

/-- Does the candidate text contain one of the skip phrases
(`any(skip in comment_text.lower() for skip in [...])`)? -/
def hasSkipPhrase (text : String) : Bool :=
  commentSkipPhrases.any (fun p => strContains (strLower text) p)

/-- A metadata sentinel record (`author='System'`, `date='N/A'`,
`length=0`, `type='metadata'`). -/
def metaRecord (text : String) : CommentRecord :=
  { text := text, author := "System", date := "N/A", length := 0,
    kind := .metadata, commentId := none }

/-- The body of the `for comment_item in comment_items` loop of
`_extract_comments`: skip items without an `article` child or without a
`comment-content` div, filter short/form texts, classify reply vs
comment, and deduplicate by `comment_id` or exact text. -/
def commentStep (comments : List CommentRecord) (it : CommentItem) :
    List CommentRecord :=
  if it.hasArticle then
    match it.content with
    | none => comments
    | some text =>
      if text = "" ∨ (strStrip text).length < 5 ∨ hasSkipPhrase text = true then
        comments
      else if comments.any (fun c =>
          c.commentId == some (strReplace it.rawId "comment-" "") ||
          c.text == text) then
        comments
      else
        comments ++ [{ text := text, author := it.author.getD "Anonymous",
                       date := it.date.getD "Unknown",
                       length := text.length,
                       kind := if it.isReply then .reply else .comment,
                       commentId := some (strReplace it.rawId "comment-" "") }]
  else comments

/-- Model of `_extract_comments`. -/
def extractComments (d : CommentsDom) : List CommentRecord :=
  let commentCount := getCommentCount d
  if d.hasSection then
    if d.hasList then
      match d.items.foldl commentStep [] with
      | [] =>
        [metaRecord ("No comments extracted (Comment count: " ++
          toString commentCount ++ ")")]
      | c :: cs => c :: cs
    else
      [metaRecord ("No comment list found (Comment count: " ++
        toString commentCount ++ ")")]
  else
    [metaRecord ("No comments section found (Comment count: " ++
      toString commentCount ++ ")")]

/-! ### Image extraction (`_extract_images`, `_get_featured_image`,
`_get_image_caption`) -/

/-- One `img` element, holding exactly the attributes `_extract_images`
reads: `src` and `data-src` (absent attribute is `none`), `alt` and
`title` (defaulted to `""` by `img.get('alt', '')`), `width`/`height`
strings, the class list, and the caption context used by
`_get_image_caption` (the `figcaption` text of an ancestor `figure` when
both exist, and the text of a caption-classed element in the immediate
parent when present). -/
structure ImgTag where
  src : Option String
  dataSrc : Option String
  alt : String
  title : String
  width : Option String
  height : Option String
  classes : List String
  figureCaption : Option String
  parentCaption : Option String
  deriving DecidableEq, Repr

/-- One image dictionary as built by `_extract_images`. -/
structure ImageRecord where
  src : String
  alt : String
  title : String
  width : Option String
  height : Option String
  cssClass : String
  caption : String
  deriving DecidableEq, Repr

/-- The image-related parts of an article DOM: `og:image` and
`twitter:image` meta contents (the attribute value when the tag exists),
the `img` elements of each matched content area
(`.pf-content, .td-post-content, .entry-content, article`), and all
`img` elements of the page (the fallback when no content area
matches). -/
structure ImageDom where
  ogImage : Option String
  twitterImage : Option String
  contentAreas : List (List ImgTag)
  allImgs : List ImgTag
  deriving DecidableEq, Repr

/-- Model of `_get_image_caption`: ancestor figure's `figcaption` text
first, else a caption-classed sibling's text, else `""`. -/
def getImageCaption (img : ImgTag) : String :=
  match img.figureCaption with
  | some c => c
  | none =>
    match img.parentCaption with
    | some c => c
    | none => ""

/-- The synthesized featured-image dictionary of `_get_featured_image`. -/
def featuredRecord (src : String) : ImageRecord :=
  { src := src, alt := "Featured Image", title := "Featured Image",
    width := none, height := none, cssClass := "featured-image",
    caption := "Featured Image" }

/-- The Twitter-card fallback of `_get_featured_image` (`content`
attribute must be truthy, i.e. a non-empty string). -/
def twitterFeatured (d : ImageDom) : Option ImageRecord :=
  match d.twitterImage with
  | some c => if c ≠ "" then some (featuredRecord c) else none
  | none => none

/-- Model of `_get_featured_image`: `og:image` content when truthy,
else `twitter:image` content when truthy, else `none`. -/
def getFeaturedImage (d : ImageDom) : Option ImageRecord :=
  match d.ogImage with
  | some c => if c ≠ "" then some (featuredRecord c) else twitterFeatured d
  | none => twitterFeatured d

/-- Split `hay` at the first occurrence of `needle`, returning the part
before it and the part after it. -/
def splitAtSub (needle : List Char) : List Char → Option (List Char × List Char)
  | [] =>
    match charsStart needle [] with
    | true => some ([], [])
    | false => none
  | c :: t =>
    match charsStart needle (c :: t) with
    | true => some ([], (c :: t).drop needle.length)
    | false =>
      match splitAtSub needle t with
      | some (a, b) => some (c :: a, b)
      | none => none

/-- Model of `urllib.parse.urljoin(base, src)` for a root-relative
`src` (one that starts with `/`): scheme and network location of `base`
followed by `src`; when `base` carries no `://`, the result is `src`
itself. -/
def urljoinRoot (base src : String) : String :=
  match splitAtSub "://".data base.data with
  | some (scheme, rest) =>
    String.mk (scheme ++ "://".data ++
      rest.takeWhile (fun c => c ≠ '/') ++ src.data)
  | none => src

/-- The URL-absolutization step of `_extract_images`: prepend `https:`
to protocol-relative references, join root-relative references onto the
base URL, and keep every other shape unchanged. -/
def resolveSrc (base src : String) : String :=
  if strStarts src "//" then String.mk ("https:".data ++ src.data)
  else if strStarts src "/" then urljoinRoot base src
  else src

/-- Python truthiness of an optional attribute string: an empty string
counts as absent. -/
def truthy : Option String → Option String
  | some s => if s = "" then none else some s
  | none => none

/-- The small-image filter of `_extract_images`: skip when both `width`
and `height` are truthy strings that parse as integers and either is
below 50; a `ValueError` keeps the image. -/
def sizeSkip (w h : Option String) : Bool :=
  match truthy w, truthy h with
  | some ws, some hs =>
    match pyInt ws, pyInt hs with
    | some wv, some hv => decide (wv < 50) || decide (hv < 50)
    | _, _ => false
  | _, _ => false

/-- URL substrings identifying decorative or unrelated assets. -/
def imageSkipPatterns : List String :=
  ["emoji", "printfriendly", "gravatar", "icon-", "button"]

/-- The body of the `for img in img_tags` loop of `_extract_images`:
pick `src` or `data-src`, absolutize, filter small images and denylisted
URLs, deduplicate against the accepted list, then append the record. -/
def imgStep (base : String) (images : List ImageRecord) (img : ImgTag) :
    List ImageRecord :=
  match pyOr img.src img.dataSrc with
  | none => images
  | some s0 =>
    if s0 = "" then images
    else if sizeSkip img.width img.height then images
    else if imageSkipPatterns.any
        (fun p => strContains (strLower (resolveSrc base s0)) p) then
      images
    else if images.any (fun ex => ex.src == resolveSrc base s0) then images
    else
      images ++ [{ src := resolveSrc base s0, alt := strStrip img.alt,
                   title := strStrip img.title,
                   width := img.width, height := img.height,
                   cssClass := String.intercalate " " img.classes,
                   caption := getImageCaption img }]

/-- Model of `_extract_images`: featured image first, then the body
images of the content areas (or of the whole page when no content area
matches). -/
def extractImages (d : ImageDom) (baseUrl : String) : List ImageRecord :=
  (match d.contentAreas with
    | [] => d.allImgs
    | _ => d.contentAreas.flatten).foldl (imgStep baseUrl)
    (match getFeaturedImage d with
      | some f => [f]
      | none => [])

/-! ### Article extraction (`extract_article`) -/

/-- One article page DOM, holding exactly what `extract_article` reads:
the text of the title element when one matches, the cleaned text of
`select_one` for each of the eight body selectors in order (`none` when
the selector matches nothing), the author element text, the date element
text, and the image and comment parts. -/
structure ArticleDom where
  title : Option String
  bodyCandidates : List (Option String)
  author : Option String
  date : Option String
  images : ImageDom
  commentsDom : CommentsDom
  deriving DecidableEq, Repr

/-- The body-selection loop of `extract_article`: walk the candidates in
order, remember the latest candidate text, and stop at the first whose
length exceeds 100. -/
def pickContent : List (Option String) → String → String
  | [], acc => acc
  | none :: rest, acc => pickContent rest acc
  | some t :: rest, _ => if 100 < t.length then t else pickContent rest t

/-- The extracted body text: the selection loop started with `""`. -/
def extractBody (cands : List (Option String)) : String :=
  pickContent cands ""

/-- The first candidate text whose length exceeds 100, if any. -/
def firstOverThreshold (cands : List (Option String)) : Option String :=
  (cands.filterMap id).find? (fun t => 100 < t.length)

/-- One article result dictionary.  The Python failure dictionary only
carries `url`, `success` and `error`; its missing keys are modelled as
empty defaults.  The extra search metadata keys (`search_keyword`,
`search_rank`, ...) added by `search_articles` on success are not
modelled. -/
structure ArticleRecord where
  url : String
  success : Bool
  error : Option String
  title : String
  content : String
  author : String
  publishDate : String
  contentLength : Nat
  images : List ImageRecord
  comments : List CommentRecord
  imageCount : Nat
  commentCount : Nat
  deriving DecidableEq, Repr

/-- The record returned when the page fetch yields no HTML. -/
def failRecord (url : String) : ArticleRecord :=
  { url := url, success := false, error := some "Failed to load page",
    title := "", content := "", author := "", publishDate := "",
    contentLength := 0, images := [], comments := [], imageCount := 0,
    commentCount := 0 }

/-- Model of `extract_article`.  The page fetch is the external
collaborator, so its result (the parsed DOM, or `none` on failure) is a
parameter. -/
def extract_article (url : String) (fetched : Option ArticleDom) :
    ArticleRecord :=
  match fetched with
  | none => failRecord url
  | some dom =>
    let title := dom.title.getD "No title found"
    let content := extractBody dom.bodyCandidates
    let images := extractImages dom.images url
    let comments := extractComments dom.commentsDom
    { url := url, success := true, error := none, title := title,
      content := content, author := dom.author.getD "Unknown",
      publishDate := dom.date.getD "Unknown",
      contentLength := content.length, images := images,
      comments := comments, imageCount := images.length,
      commentCount := comments.length }

/-! ### Keyword search with pagination (`search_articles`) -/

/-- The pagination navigation block (`div.page-nav`) when present: text
of its `span.pages` child, and the `href` of its first anchor. -/
structure PageNav where
  pagesText : Option String
  firstLinkHref : Option String
  deriving DecidableEq, Repr

/-- One fetched search-results page, holding exactly what
`search_articles` reads from it: the `href` of the anchor inside each
`h3.entry-title` of the main content area, all anchor `href`s of the
main content area (the fallback), the pagination nav, and all anchor
`href`s of the whole page (continuation method 2). -/
structure SearchPage where
  titleLinks : List String
  contentLinks : List String
  pageNav : Option PageNav
  allPageLinks : List String
  deriving DecidableEq, Repr

/-- The acceptance predicate applied to each candidate `href` on a
search-results page. -/
def acceptSearchHref (href : String) (pageUrls allUrls : List String) : Bool :=
  strStarts href "https://www.nrinow.news/" &&
  strContains href "/202" &&
  !(strContains href "/page/") &&
  !(pageUrls.contains href) &&
  !(allUrls.contains href) &&
  !(strEnds href "#comments") &&
  !(strEnds href "#respond")

/-- Collect the accepted `href`s of one strategy in order, deduplicating
within the page and against the session list. -/
def collectHrefs (hrefs allUrls : List String) : List String :=
  hrefs.foldl
    (fun acc h => if acceptSearchHref h acc allUrls then acc ++ [h] else acc)
    []

/-- The per-page URL extraction of `search_articles`: title links first;
when that yields nothing, fall back to all links of the main content
area. -/
def pageArticleUrls (pg : SearchPage) (allUrls : List String) : List String :=
  match collectHrefs pg.titleLinks allUrls with
  | [] => collectHrefs pg.contentLinks allUrls
  | l => l

/-- The `Page X of Y` signal: fires when the text contains `Page` and
`of` and words 1 and 3 parse as integers with the first below the
second (any `ValueError`/`IndexError` silences the signal). -/
def pagesTextSignal (t : String) : Bool :=
  if strContains t "Page" && strContains t "of" then
    match (wordsOf t).get? 1, (wordsOf t).get? 3 with
    | some a, some b =>
      match pyInt a, pyInt b with
      | some x, some y => decide (x < y)
      | _, _ => false
    | _, _ => false
  else false

/-- The path fragment identifying a link to the next results page. -/
def nextPageNeedle (pageNum : Nat) : String :=
  "/page/" ++ toString (pageNum + 1) ++ "/"

/-- Continuation method 1: the pagination nav's `Page X of Y` label or
its first link pointing at the next page. -/
def navSignal (pg : SearchPage) (pageNum : Nat) : Bool :=
  match pg.pageNav with
  | none => false
  | some nav =>
    let s1 :=
      match nav.pagesText with
      | some t => pagesTextSignal t
      | none => false
    let s2 :=
      match nav.firstLinkHref with
      | some href => strContains href (nextPageNeedle pageNum)
      | none => false
    s1 || s2

/-- Continuation method 2: any link on the page to the next page that
carries the search query. -/
def linksSignal (pg : SearchPage) (pageNum : Nat) : Bool :=
  pg.allPageLinks.any (fun href =>
    strContains href (nextPageNeedle pageNum) && strContains href "?s=")

/-- The multi-signal continuation decision of `search_articles`:
methods 1 and 2 as above, then method 4 (a full page of at least 7
results while below the page limit).  Method 3 only logs. -/
def hasNextPage (pg : SearchPage) (pageNum maxPages newCount : Nat) : Bool :=
  let h1 := navSignal pg pageNum
  let h2 := h1 || linksSignal pg pageNum
  h2 || (decide (7 ≤ newCount) && decide (pageNum < maxPages))

/-- The paginated search loop of `search_articles`, returning the
accumulated URL list and the number of result pages fetched.  The page
fetcher is the external collaborator, indexed by the page number (the
page URL is a fixed function of keyword and page number).  The fuel
argument equals `maxPages + 1 - pageNum`, so the fuel-exhaustion branch
coincides with the `page_num <= max_pages` loop guard being false. -/
def searchGo (fetch : Nat → Option SearchPage) (maxArticles maxPages : Nat) :
    Nat → Nat → List String → Nat → List String × Nat
  | 0, _, acc, fetched => (acc, fetched)
  | fuel + 1, pageNum, acc, fetched =>
    if acc.length < maxArticles ∧ pageNum ≤ maxPages then
      match fetch pageNum with
      | none => (acc, fetched + 1)
      | some pg =>
        let newUrls := pageArticleUrls pg acc
        match newUrls with
        | [] => (acc, fetched + 1)
        | _ =>
          let acc2 := acc ++ newUrls
          if hasNextPage pg pageNum maxPages newUrls.length then
            searchGo fetch maxArticles maxPages fuel (pageNum + 1) acc2
              (fetched + 1)
          else (acc2, fetched + 1)
    else (acc, fetched)

/-- The URL-collection phase of `search_articles`: start at page 1 with
an empty session list. -/
def searchUrls (fetch : Nat → Option SearchPage) (maxArticles maxPages : Nat) :
    List String × Nat :=
  searchGo fetch maxArticles maxPages maxPages 1 [] 0

/-- The article-scraping loop shared by `search_articles` and
`scrape_articles`: every URL produces exactly one record, in discovery
order, failures included. -/
def scrapeLoop (fetchArticle : String → Option ArticleDom)
    (urls : List String) : List ArticleRecord :=
  urls.map (fun u => extract_article u (fetchArticle u))

/-- The URLs selected for scraping: the accumulated list truncated to
`max_articles`. -/
def urlsToScrape (fetch : Nat → Option SearchPage)
    (maxArticles maxPages : Nat) : List String :=
  (searchUrls fetch maxArticles maxPages).1.take maxArticles

/-- Model of `search_articles`: collect URLs page by page, return `[]`
when nothing was found, else scrape the truncated list. -/
def search_articles (fetchPage : Nat → Option SearchPage)
    (fetchArticle : String → Option ArticleDom)
    (maxArticles maxPages : Nat) : List ArticleRecord :=
  match (searchUrls fetchPage maxArticles maxPages).1 with
  | [] => []
  | all => scrapeLoop fetchArticle (all.take maxArticles)

/-! ### Latest-articles crawl (`find_articles`, `scrape_articles`) -/

/-- The homepage link filter of `find_articles`. -/
def acceptHomeHref (href : String) (acc : List String) : Bool :=
  strStarts href "https://www.nrinow.news/" &&
  strContains href "/2025/" &&
  !(acc.contains href) &&
  !(strEnds href "#comments")

/-- Model of `find_articles`: the homepage fetch result is the list of
anchor `href`s (or `none` on fetch failure); accepted links are
accumulated in order and the result is truncated to the first 10. -/
def find_articles (homepage : Option (List String)) : List String :=
  match homepage with
  | none => []
  | some links =>
    (links.foldl
      (fun acc h => if acceptHomeHref h acc then acc ++ [h] else acc)
      []).take 10

/-- Model of `scrape_articles`: discover homepage article URLs, return
`[]` when none were found, else scrape the first `max_articles` of
them. -/
def scrape_articles (homepage : Option (List String))
    (fetchArticle : String → Option ArticleDom) (maxArticles : Nat) :
    List ArticleRecord :=
  match find_articles homepage with
  | [] => []
  | urls => scrapeLoop fetchArticle (urls.take maxArticles)

/-! ### Concrete inputs used by the witnesses and counterexamples -/

/-- Is the URL absolute in the sense relevant to this site (an
`http`/`https` scheme present)? -/
def isAbsUrl (s : String) : Bool :=
  strStarts s "http://" || strStarts s "https://"

/-- An article DOM with zero genuine comments: the section, the list,
or the surviving items are missing. -/
def zeroGenuine (d : CommentsDom) : Prop :=
  d.hasSection = false ∨ d.hasList = false ∨ d.items.foldl commentStep [] = []

instance (d : CommentsDom) : Decidable (zeroGenuine d) := by
  unfold zeroGenuine
  infer_instance

/-- A comments DOM with no comments section at all. -/
def noCommentsDom : CommentsDom :=
  { commentsTitle := none, commentMeta := none, hasSection := false,
    hasList := false, items := [] }

/-- An image DOM with no featured image and no `img` elements. -/
def emptyImageDom : ImageDom :=
  { ogImage := none, twitterImage := none, contentAreas := [], allImgs := [] }

/-- A minimal article DOM on which every field degrades to its
sentinel. -/
def plainArticleDom : ArticleDom :=
  { title := none, bodyCandidates := [], author := none, date := none,
    images := emptyImageDom, commentsDom := noCommentsDom }

/-- A comment item whose content has 7 characters. -/
def shortCommentItem : CommentItem :=
  { rawId := "comment-42", hasArticle := true, author := some "Alice",
    date := some "May 1, 2025", content := some "sevens!", isReply := false }

/-- A comments DOM whose single surviving item has a 7-character text. -/
def shortCommentsDom : CommentsDom :=
  { commentsTitle := none, commentMeta := none, hasSection := true,
    hasList := true, items := [shortCommentItem] }

/-- The record that `shortCommentsDom` produces: a 7-character comment
that the 5-character threshold lets through. -/
def shortRecord : CommentRecord :=
  { text := "sevens!", author := "Alice", date := "May 1, 2025", length := 7,
    kind := .comment, commentId := some "42" }

/-- A body `img` element with the given `src` and nothing else. -/
def bareImg (s : String) : ImgTag :=
  { src := some s, dataSrc := none, alt := "", title := "", width := none,
    height := none, classes := [], figureCaption := none,
    parentCaption := none }

/-- The §8 scenario page: an Open Graph featured image and two in-body
images, the first duplicating the featured URL. -/
def ogDupDom : ImageDom :=
  { ogImage := some "https://www.nrinow.news/f.jpg", twitterImage := none,
    contentAreas := [[bareImg "https://www.nrinow.news/f.jpg",
      bareImg "https://www.nrinow.news/b.jpg"]],
    allImgs := [] }

/-- A page whose only body image has a document-relative `src`. -/
def relImgDom : ImageDom :=
  { ogImage := none, twitterImage := none,
    contentAreas := [[bareImg "images/a.png"]], allImgs := [] }

/-- A page whose only body image has a root-relative `src`. -/
def rootImgDom : ImageDom :=
  { ogImage := none, twitterImage := none,
    contentAreas := [[bareImg "/img/p.png"]], allImgs := [] }

/-- The record that `rootImgDom` produces after resolution against the
site base URL. -/
def rootImgRecord : ImageRecord :=
  { src := "https://www.nrinow.news/img/p.png", alt := "", title := "",
    width := none, height := none, cssClass := "", caption := "" }

/-- A body candidate of exactly 100 characters. -/
def s100 : String := String.mk (List.replicate 100 'a')

/-- A body candidate of 101 characters. -/
def s101 : String := String.mk (List.replicate 101 'b')

/-- A body candidate of 99 characters. -/
def s99 : String := String.mk (List.replicate 99 'c')

/-- Five article URLs, of which the 3rd will fail to fetch. -/
def fiveUrls : List String :=
  ["https://www.nrinow.news/2025/a", "https://www.nrinow.news/2025/b",
   "https://www.nrinow.news/2025/c", "https://www.nrinow.news/2025/d",
   "https://www.nrinow.news/2025/e"]

/-- An article fetcher that fails exactly on the 3rd of `fiveUrls`. -/
def fetchFiveThirdFails : String → Option ArticleDom := fun u =>
  if u = "https://www.nrinow.news/2025/c" then none else some plainArticleDom

/-- A search-results page: two title links and a `Page 1 of 2` label. -/
def searchPageOne : SearchPage :=
  { titleLinks := ["https://www.nrinow.news/2025/one",
      "https://www.nrinow.news/2025/two"],
    contentLinks := [],
    pageNav := some { pagesText := some "Page 1 of 2", firstLinkHref := none },
    allPageLinks := [] }

/-- The second results page: one repeated link, one new link, and a
`Page 2 of 2` label. -/
def searchPageTwo : SearchPage :=
  { titleLinks := ["https://www.nrinow.news/2025/two",
      "https://www.nrinow.news/2025/three"],
    contentLinks := [],
    pageNav := some { pagesText := some "Page 2 of 2", firstLinkHref := none },
    allPageLinks := [] }

/-- A two-page search fetcher. -/
def fetchTwoPages : Nat → Option SearchPage := fun n =>
  if n = 1 then some searchPageOne
  else if n = 2 then some searchPageTwo
  else none

/-! ### Helper lemmas -/

/-- A list prefixed by a pattern splits off that pattern. -/
theorem charsStart_exists {p h : List Char} (hs : charsStart p h = true) :
    ∃ t, h = p ++ t := by
  induction p generalizing h with
  | nil => exact ⟨h, rfl⟩
  | cons c cs ih =>
    cases h with
    | nil => simp [charsStart] at hs
    | cons d ds =>
      simp only [charsStart, Bool.and_eq_true, beq_iff_eq] at hs
      obtain ⟨t, ht⟩ := ih hs.2
      exact ⟨t, by simp [hs.1, ht]⟩

/-- Appending a fresh element keeps a list duplicate-free. -/
theorem nodup_concat {α : Type} {l : List α} {a : α} (h1 : l.Nodup)
    (h2 : a ∉ l) : (l ++ [a]).Nodup := by
  simp [List.nodup_append, h1, h2]

/-- The homepage link list is truncated to at most 10 URLs. -/
theorem find_articles_length_le (homepage : Option (List String)) :
    (find_articles homepage).length ≤ 10 := by
  unfold find_articles
  split
  · simp
  · exact List.length_take_le 10 _

/-- Scraping yields exactly one record per selected URL. -/
theorem scrapeLoop_length (fetchArticle : String → Option ArticleDom)
    (urls : List String) : (scrapeLoop fetchArticle urls).length = urls.length := by
  simp [scrapeLoop]

/-- The body-selection loop returns the first candidate over the
threshold when one exists, whatever text was remembered so far. -/
theorem pickContent_firstOver (cands : List (Option String)) (t : String)
    (h : firstOverThreshold cands = some t) :
    ∀ acc, pickContent cands acc = t := by
  induction cands with
  | nil => simp [firstOverThreshold] at h
  | cons c rest ih =>
    intro acc
    cases c with
    | none =>
      have h2 : firstOverThreshold rest = some t := by
        simpa [firstOverThreshold] using h
      exact ih h2 acc
    | some s =>
      by_cases hlen : 100 < s.length
      · have hts : t = s := by
          simp [firstOverThreshold, List.find?, hlen] at h
          exact h.symm
        simp [pickContent, hlen, hts]
      · have h2 : firstOverThreshold rest = some t := by
          simpa [firstOverThreshold, List.find?, hlen] using h
        simpa [pickContent, hlen] using ih h2 s

/-- With zero genuine comments the extractor returns exactly the one
metadata sentinel. -/
theorem extractComments_zero {d : CommentsDom} (h : zeroGenuine d) :
    (extractComments d).length = 1 ∧
    ∀ r ∈ extractComments d, r.kind = CommentKind.metadata := by
  obtain ⟨ct, cm, hs, hl, items⟩ := d
  rcases h with h | h | h
  · simp at h
    simp [extractComments, h, metaRecord]
  · simp at h
    subst h
    cases hs <;> simp [extractComments, metaRecord]
  · simp only at h
    cases hs <;> cases hl <;> simp [extractComments, h, metaRecord]

/-- The comment extractor never returns an empty list. -/
theorem extractComments_ne_nil (d : CommentsDom) : extractComments d ≠ [] := by
  obtain ⟨ct, cm, hs, hl, items⟩ := d
  cases hs with
  | false => simp [extractComments]
  | true =>
    cases hl with
    | false => simp [extractComments]
    | true =>
      cases hf : items.foldl commentStep [] with
      | nil => simp [extractComments, hf]
      | cons c cs => simp [extractComments, hf]

/-- Every record the comment-loop body appends has nonempty text of
stripped length at least 5 and no skip phrase. -/
theorem commentStep_mem {acc : List CommentRecord} {it : CommentItem}
    {r : CommentRecord} (hr : r ∈ commentStep acc it) :
    r ∈ acc ∨ (r.text ≠ "" ∧ 5 ≤ (strStrip r.text).length ∧
      hasSkipPhrase r.text = false) := by
  unfold commentStep at hr
  split at hr
  · split at hr
    · exact Or.inl hr
    · rename_i text
      split at hr
      · exact Or.inl hr
      · split at hr
        · exact Or.inl hr
        · rename_i hguard hdup
          rcases List.mem_append.mp hr with h | h
          · exact Or.inl h
          · simp only [List.mem_singleton] at h
            subst h
            push_neg at hguard
            exact Or.inr ⟨hguard.1, hguard.2.1, by simpa using hguard.2.2⟩
  · exact Or.inl hr

/-- The filter property propagates through the whole comment fold. -/
theorem commentFold_mem :
    ∀ (items : List CommentItem) (acc : List CommentRecord)
      (r : CommentRecord), r ∈ items.foldl commentStep acc →
      r ∈ acc ∨ (r.text ≠ "" ∧ 5 ≤ (strStrip r.text).length ∧
        hasSkipPhrase r.text = false) := by
  intro items
  induction items with
  | nil => intro acc r hr; exact Or.inl hr
  | cons it its ih =>
    intro acc r hr
    rw [List.foldl_cons] at hr
    rcases ih _ r hr with h | h
    · exact commentStep_mem h
    · exact Or.inr h

/-- The image-loop body either keeps the list unchanged or appends one
record whose source URL is the resolution of some raw reference and is
fresh among the accepted sources. -/
theorem imgStep_cases (base : String) (images : List ImageRecord)
    (img : ImgTag) :
    imgStep base images img = images ∨
    ∃ s0, imgStep base images img =
        images ++ [{ src := resolveSrc base s0, alt := strStrip img.alt,
                     title := strStrip img.title, width := img.width,
                     height := img.height,
                     cssClass := String.intercalate " " img.classes,
                     caption := getImageCaption img }] ∧
      images.any (fun ex => ex.src == resolveSrc base s0) = false := by
  unfold imgStep
  split
  · exact Or.inl rfl
  · rename_i s0 hpy
    split
    · exact Or.inl rfl
    · split
      · exact Or.inl rfl
      · split
        · exact Or.inl rfl
        · split
          · exact Or.inl rfl
          · rename_i hdup
            exact Or.inr ⟨s0, rfl, by simpa using hdup⟩

/-- The image fold preserves pairwise-distinct source URLs. -/
theorem imgFold_src_nodup (base : String) :
    ∀ (tags : List ImgTag) (images : List ImageRecord),
      (images.map (fun r => r.src)).Nodup →
      ((tags.foldl (imgStep base) images).map (fun r => r.src)).Nodup := by
  intro tags
  induction tags with
  | nil => intro images h; exact h
  | cons t ts ih =>
    intro images h
    rw [List.foldl_cons]
    apply ih
    rcases imgStep_cases base images t with heq | ⟨s0, heq, hany⟩
    · rw [heq]; exact h
    · rw [heq]
      simp only [List.map_append, List.map_cons, List.map_nil]
      refine nodup_concat h ?_
      intro hmem
      obtain ⟨x, hx, hxe⟩ := List.mem_map.mp hmem
      rw [List.any_eq_false] at hany
      exact hany x hx (by simp [hxe])

/-- Every record the image fold adds carries a resolved source URL. -/
theorem imgFold_mem (base : String) :
    ∀ (tags : List ImgTag) (images : List ImageRecord) (r : ImageRecord),
      r ∈ tags.foldl (imgStep base) images →
      r ∈ images ∨ ∃ s, r.src = resolveSrc base s := by
  intro tags
  induction tags with
  | nil => intro images r hr; exact Or.inl hr
  | cons t ts ih =>
    intro images r hr
    rw [List.foldl_cons] at hr
    rcases ih _ r hr with h | h
    · rcases imgStep_cases base images t with heq | ⟨s0, heq, _⟩
      · rw [heq] at h; exact Or.inl h
      · rw [heq] at h
        rcases List.mem_append.mp h with h2 | h2
        · exact Or.inl h2
        · simp only [List.mem_singleton] at h2
          subst h2
          exact Or.inr ⟨s0, rfl⟩
    · exact Or.inr h

/-- A Twitter-card featured record takes its source URL verbatim from
the meta content. -/
theorem twitterFeatured_src {d : ImageDom} {f : ImageRecord}
    (h : twitterFeatured d = some f) :
    ∃ u, d.twitterImage = some u ∧ f.src = u := by
  unfold twitterFeatured at h
  split at h
  · rename_i c hc
    split at h
    · exact ⟨c, hc, by rw [← Option.some.inj h]; rfl⟩
    · exact absurd h (by simp)
  · exact absurd h (by simp)

/-- A featured record takes its source URL verbatim from the `og:image`
or `twitter:image` meta content. -/
theorem getFeaturedImage_src {d : ImageDom} {f : ImageRecord}
    (h : getFeaturedImage d = some f) :
    (∃ u, d.ogImage = some u ∧ f.src = u) ∨
    (∃ u, d.twitterImage = some u ∧ f.src = u) := by
  unfold getFeaturedImage at h
  split at h
  · rename_i c hc
    split at h
    · exact Or.inl ⟨c, hc, by rw [← Option.some.inj h]; rfl⟩
    · exact Or.inr (twitterFeatured_src h)
  · exact Or.inr (twitterFeatured_src h)

/-- The resolution step never lets a reference that begins with `/`
through: protocol-relative references gain the `https:` scheme,
root-relative references gain the base's scheme and host, and the
remaining shapes do not begin with `/` to begin with. -/
theorem resolveSrc_not_root (base s : String)
    (hb : strStarts base "https://" = true) :
    strStarts (resolveSrc base s) "/" = false := by
  unfold resolveSrc
  split
  · rfl
  · split
    · unfold strStarts at hb
      obtain ⟨t, ht⟩ := charsStart_exists hb
      obtain ⟨bd⟩ := base
      simp only at ht
      subst ht
      rfl
    · rename_i h2
      simpa using h2

/-! ### Claims -/

/-- C10: for every invocation of the latest-articles crawl, at most 10
articles are ever scraped regardless of the `max_articles` argument,
because `find_articles` truncates homepage discovery to the first 10
qualifying URLs. -/
theorem latest_crawl_cap_ten (homepage : Option (List String))
    (fetchArticle : String → Option ArticleDom) (maxArticles : Nat) :
    (scrape_articles homepage fetchArticle maxArticles).length ≤ 10 := by
  have h10 := find_articles_length_le homepage
  unfold scrape_articles
  cases hfa : find_articles homepage with
  | nil => simp
  | cons a as =>
    rw [hfa] at h10
    show (scrapeLoop fetchArticle ((a :: as).take maxArticles)).length ≤ 10
    rw [scrapeLoop_length]
    have h2 := List.length_take_le' maxArticles (a :: as)
    omega

/-- C5 (amended): the ordered body candidates are tried in sequence and
the first candidate whose cleaned text length STRICTLY exceeds 100
characters is accepted; a candidate with 100 characters or fewer
(including exactly 100) is passed over in favor of later candidates. -/
theorem body_threshold_strict (cands : List (Option String)) (t : String)
    (h : firstOverThreshold cands = some t) : extractBody cands = t :=
  pickContent_firstOver cands t h ""

/-- C5 witness: a 99-character candidate is rejected in favor of a
101-character one, which is accepted. -/
theorem body_threshold_strict_witness :
    firstOverThreshold [some s99, some s101] = some s101 ∧
    extractBody [some s99, some s101] = s101 :=
  ⟨by decide, body_threshold_strict _ _ (by decide)⟩

/-- C5 counterexample: a first candidate of exactly 100 characters is
NOT accepted — the next candidate wins, refuting "a candidate with 100
or more characters is accepted". -/
theorem body_threshold_counterexample :
    s100.length = 100 ∧ extractBody [some s100, some s101] ≠ s100 := by
  constructor <;> decide

/-- C3: the comment extractor never returns an empty list, and on a DOM
with zero genuine comments (no comments container, no comment list, or
every candidate item filtered out) it returns exactly one record of
kind metadata. -/
theorem extractComments_never_empty (d : CommentsDom) :
    extractComments d ≠ [] ∧
    (zeroGenuine d → (extractComments d).length = 1 ∧
      ∀ r ∈ extractComments d, r.kind = CommentKind.metadata) :=
  ⟨extractComments_ne_nil d, fun h => extractComments_zero h⟩

/-- C3 witness: a DOM with no comments section yields exactly one
record. -/
theorem extractComments_never_empty_witness :
    extractComments noCommentsDom ≠ [] ∧
    (extractComments noCommentsDom).length = 1 :=
  ⟨(extractComments_never_empty noCommentsDom).1,
   ((extractComments_never_empty noCommentsDom).2 (by decide)).1⟩

/-- C8 counterexample: for an article whose DOM has zero genuine
comments, the reported `comment_count` is 1 (the metadata sentinel is
counted), not 0 as the claim states. -/
theorem sentinel_counted_counterexample :
    plainArticleDom.commentsDom.hasSection = false ∧
    (extract_article "https://www.nrinow.news/2025/a"
      (some plainArticleDom)).commentCount ≠ 0 := by
  constructor <;> decide

/-- C8 (amended): `comment_count` is the length of the comments list,
sentinel included: an article whose DOM contains zero genuine comments
reports a comment count of 1, its single comment being the
metadata-kind sentinel. -/
theorem sentinel_comment_count_one (url : String) (dom : ArticleDom)
    (h : zeroGenuine dom.commentsDom) :
    (extract_article url (some dom)).commentCount = 1 ∧
    ∀ c ∈ (extract_article url (some dom)).comments,
      c.kind = CommentKind.metadata := by
  have hz := extractComments_zero h
  exact ⟨hz.1, hz.2⟩

/-- C8 witness: evaluated on the concrete sentinel-only article. -/
theorem sentinel_comment_count_one_witness :
    (extract_article "https://www.nrinow.news/2025/a"
      (some plainArticleDom)).commentCount = 1 :=
  (sentinel_comment_count_one "https://www.nrinow.news/2025/a"
    plainArticleDom (by decide)).1

/-- Each loop iteration performs exactly one page fetch, so the fetch
count grows by at most the remaining fuel. -/
theorem searchGo_fetched_le (fetch : Nat → Option SearchPage)
    (maxArticles maxPages : Nat) :
    ∀ (fuel pageNum fetched : Nat) (acc : List String),
      (searchGo fetch maxArticles maxPages fuel pageNum acc fetched).2 ≤
        fetched + fuel := by
  intro fuel
  induction fuel with
  | zero => intro pageNum fetched acc; simp [searchGo]
  | succ n ih =>
    intro pageNum fetched acc
    simp only [searchGo]
    split
    · split
      · simp
      · split
        · simp
        · split
          · exact le_trans (ih (pageNum + 1) (fetched + 1) _) (by omega)
          · simp
    · simp

/-- An accepted href is neither in the page list nor in the session
list. -/
theorem acceptSearchHref_not_mem {href : String}
    {pageUrls allUrls : List String}
    (h : acceptSearchHref href pageUrls allUrls = true) :
    href ∉ pageUrls ∧ href ∉ allUrls := by
  unfold acceptSearchHref at h
  simp only [Bool.and_eq_true] at h
  exact ⟨by simpa using h.1.1.1.2, by simpa using h.1.1.2⟩

/-- One strategy's collection is duplicate-free and disjoint from the
session list. -/
theorem collectHrefs_nodup (hrefs allUrls : List String) :
    (collectHrefs hrefs allUrls).Nodup ∧
    ∀ x ∈ collectHrefs hrefs allUrls, x ∉ allUrls := by
  unfold collectHrefs
  suffices h : ∀ acc : List String, acc.Nodup → (∀ x ∈ acc, x ∉ allUrls) →
      (hrefs.foldl (fun acc h =>
        if acceptSearchHref h acc allUrls then acc ++ [h] else acc)
        acc).Nodup ∧
      ∀ x ∈ hrefs.foldl (fun acc h =>
        if acceptSearchHref h acc allUrls then acc ++ [h] else acc) acc,
        x ∉ allUrls by
    exact h [] List.nodup_nil (by simp)
  induction hrefs with
  | nil => intro acc h1 h2; exact ⟨h1, h2⟩
  | cons a rest ih =>
    intro acc h1 h2
    rw [List.foldl_cons]
    by_cases hacc : acceptSearchHref a acc allUrls = true
    · rw [if_pos hacc]
      have hnm := acceptSearchHref_not_mem hacc
      refine ih (acc ++ [a]) (nodup_concat h1 hnm.1) ?_
      intro x hx
      rcases List.mem_append.mp hx with h | h
      · exact h2 x h
      · simp only [List.mem_singleton] at h
        subst h
        exact hnm.2
    · rw [if_neg hacc]
      exact ih acc h1 h2

/-- The per-page URL list is duplicate-free and disjoint from the
session list, whichever strategy produced it. -/
theorem pageArticleUrls_nodup (pg : SearchPage) (allUrls : List String) :
    (pageArticleUrls pg allUrls).Nodup ∧
    ∀ x ∈ pageArticleUrls pg allUrls, x ∉ allUrls := by
  have ht := collectHrefs_nodup pg.titleLinks allUrls
  unfold pageArticleUrls
  cases hc : collectHrefs pg.titleLinks allUrls with
  | nil => exact collectHrefs_nodup pg.contentLinks allUrls
  | cons a as =>
    rw [hc] at ht
    exact ht

/-- The paginated loop preserves a duplicate-free session list. -/
theorem searchGo_nodup_aux (fetch : Nat → Option SearchPage)
    (maxArticles maxPages : Nat) :
    ∀ (fuel pageNum fetched : Nat) (acc : List String), acc.Nodup →
      (searchGo fetch maxArticles maxPages fuel pageNum acc fetched).1.Nodup := by
  intro fuel
  induction fuel with
  | zero => intro pageNum fetched acc h; simpa [searchGo] using h
  | succ n ih =>
    intro pageNum fetched acc h
    simp only [searchGo]
    split
    · split
      · simpa using h
      · rename_i pg hpg
        split
        · simpa using h
        · have hnew := pageArticleUrls_nodup pg acc
          have happ : (acc ++ pageArticleUrls pg acc).Nodup := by
            refine List.Nodup.append h hnew.1 ?_
            intro x hx hx2
            exact hnew.2 x hx2 hx
          split
          · exact ih (pageNum + 1) (fetched + 1) _ happ
          · simpa using happ
    · simpa using h

/-- The record at position `i` of the scraping loop is the extraction
of the `i`-th URL with its own fetch result. -/
theorem scrapeLoop_get (fetchArticle : String → Option ArticleDom)
    (urls : List String) (i : Fin urls.length) :
    (scrapeLoop fetchArticle urls).get
      (Fin.cast (scrapeLoop_length fetchArticle urls).symm i) =
    extract_article (urls.get i) (fetchArticle (urls.get i)) := by
  simp [scrapeLoop, List.get_eq_getElem, Fin.coe_cast, List.getElem_map]

/-- C6: an article URL whose page fetch fails yields exactly the
failure record with `success = false` and error `Failed to load page`,
no extraction being run; in a multi-article crawl every URL yields one
record in position, the failed URL's record being the failure record
while every successfully fetched URL's record has `success = true`. -/
theorem fetch_failure_isolated (fetchArticle : String → Option ArticleDom)
    (urls : List String) :
    (∀ u, extract_article u none = failRecord u ∧
      (failRecord u).success = false ∧
      (failRecord u).error = some "Failed to load page") ∧
    (scrapeLoop fetchArticle urls).length = urls.length ∧
    ∀ i : Fin urls.length,
      (fetchArticle (urls.get i) = none →
        (scrapeLoop fetchArticle urls).get
          (Fin.cast (scrapeLoop_length fetchArticle urls).symm i) =
        failRecord (urls.get i)) ∧
      ∀ dom, fetchArticle (urls.get i) = some dom →
        ((scrapeLoop fetchArticle urls).get
          (Fin.cast (scrapeLoop_length fetchArticle urls).symm i)).success =
        true := by
  refine ⟨fun u => ⟨rfl, rfl, rfl⟩, scrapeLoop_length _ _, fun i => ⟨?_, ?_⟩⟩
  · intro hnone
    rw [scrapeLoop_get, hnone]
    rfl
  · intro dom hdom
    rw [scrapeLoop_get, hdom]
    rfl

/-- C6 witness: five URLs with the 3rd failing give five records, the
3rd with `success = false` and the others extracted normally. -/
theorem fetch_failure_isolated_witness :
    (scrapeLoop fetchFiveThirdFails fiveUrls).length = 5 ∧
    ((scrapeLoop fetchFiveThirdFails fiveUrls).get
      (Fin.cast (scrapeLoop_length fetchFiveThirdFails fiveUrls).symm
        ⟨2, by decide⟩)).success = false ∧
    ((scrapeLoop fetchFiveThirdFails fiveUrls).get
      (Fin.cast (scrapeLoop_length fetchFiveThirdFails fiveUrls).symm
        ⟨0, by decide⟩)).success = true := by
  refine ⟨?_, ?_, ?_⟩
  · rw [(fetch_failure_isolated fetchFiveThirdFails fiveUrls).2.1]
    rfl
  · rw [((fetch_failure_isolated fetchFiveThirdFails fiveUrls).2.2
      ⟨2, by decide⟩).1 (by decide)]
    rfl
  · exact ((fetch_failure_isolated fetchFiveThirdFails fiveUrls).2.2
      ⟨0, by decide⟩).2 plainArticleDom (by decide)

/-- C1: a keyword search crawl with `maxPages = N` and
`maxArticles = M` (both at least 1) fetches at most N result pages, and
the URL list selected for scraping — hence the returned record list —
has at most M entries. -/
theorem search_pagination_bounds (fetchPage : Nat → Option SearchPage)
    (fetchArticle : String → Option ArticleDom)
    (maxArticles maxPages : Nat) (_hA : 1 ≤ maxArticles)
    (_hP : 1 ≤ maxPages) :
    (searchUrls fetchPage maxArticles maxPages).2 ≤ maxPages ∧
    (urlsToScrape fetchPage maxArticles maxPages).length ≤ maxArticles ∧
    (search_articles fetchPage fetchArticle maxArticles maxPages).length ≤
      maxArticles := by
  refine ⟨?_, ?_, ?_⟩
  · have h := searchGo_fetched_le fetchPage maxArticles maxPages maxPages 1 0 []
    simpa [searchUrls] using h
  · simp only [urlsToScrape]
    exact List.length_take_le _ _
  · unfold search_articles
    cases hu : (searchUrls fetchPage maxArticles maxPages).1 with
    | nil => simp
    | cons a as =>
      show (scrapeLoop fetchArticle ((a :: as).take maxArticles)).length ≤ _
      rw [scrapeLoop_length]
      exact List.length_take_le _ _

/-- C1 witness: the bounds evaluated on the concrete two-page search
with `maxArticles = 10`, `maxPages = 5`. -/
theorem search_pagination_bounds_witness :
    (searchUrls fetchTwoPages 10 5).2 ≤ 5 ∧
    (urlsToScrape fetchTwoPages 10 5).length ≤ 10 ∧
    (search_articles fetchTwoPages (fun _ => some plainArticleDom)
      10 5).length ≤ 10 :=
  search_pagination_bounds fetchTwoPages (fun _ => some plainArticleDom)
    10 5 (by decide) (by decide)

/-- C2: a search session's accumulated URL list has no duplicates —
each URL appears at most once across all result pages — and more
generally, starting the loop from any duplicate-free seen set keeps the
list duplicate-free, so a URL already seen when a later page is
processed is never emitted again. -/
theorem search_urls_nodup :
    (∀ (fetch : Nat → Option SearchPage)
      (maxArticles maxPages fuel pageNum fetched : Nat)
      (seen : List String), seen.Nodup →
      (searchGo fetch maxArticles maxPages fuel pageNum seen
        fetched).1.Nodup) ∧
    ∀ (fetch : Nat → Option SearchPage) (maxArticles maxPages : Nat),
      (searchUrls fetch maxArticles maxPages).1.Nodup :=
  ⟨fun fetch mA mP fuel p f seen h =>
    searchGo_nodup_aux fetch mA mP fuel p f seen h,
   fun fetch mA mP =>
    searchGo_nodup_aux fetch mA mP mP 1 0 [] List.nodup_nil⟩

/-- C2 witness: the loop started from a concrete singleton seen set on
the concrete two-page search keeps the list duplicate-free. -/
theorem search_urls_nodup_witness :
    (searchGo fetchTwoPages 10 5 5 1
      ["https://www.nrinow.news/2025/zero"] 0).1.Nodup :=
  search_urls_nodup.1 fetchTwoPages 10 5 5 1 0
    ["https://www.nrinow.news/2025/zero"] (by decide)

/-- C4: no two image records of one article share a source URL; in
particular the scenario page with an Open Graph featured image and two
in-body images, one duplicating the featured URL, yields exactly the
two distinct records. -/
theorem extractImages_src_nodup :
    (∀ (d : ImageDom) (baseUrl : String),
      ((extractImages d baseUrl).map (fun r => r.src)).Nodup) ∧
    (extractImages ogDupDom "https://www.nrinow.news/2025/x").map
        (fun r => r.src) =
      ["https://www.nrinow.news/f.jpg", "https://www.nrinow.news/b.jpg"] := by
  constructor
  · intro d baseUrl
    unfold extractImages
    apply imgFold_src_nodup
    split <;> simp
  · decide

/-- C7 counterexample: a body image with a document-relative `src`
(`images/a.png`) produces a record whose source URL is not absolute —
only protocol-relative and root-relative references are resolved, so
"for every shape of relative reference" fails. -/
theorem image_url_not_absolute_counterexample :
    (extractImages relImgDom "https://www.nrinow.news/2025/x").all
      (fun r => isAbsUrl r.src) = false := by
  decide

/-- C7 (amended): protocol-relative and root-relative `src` (or
`data-src`) references are resolved against the base URL before a
record is constructed, so (for an absolute base URL and featured-image
meta URLs that are not root-relative) no record's source URL begins
with `/`; document-relative references of other shapes are stored
verbatim and may remain non-absolute. -/
theorem image_url_root_resolved (d : ImageDom) (baseUrl : String)
    (r : ImageRecord) (hb : strStarts baseUrl "https://" = true)
    (hog : ∀ u, d.ogImage = some u → strStarts u "/" = false)
    (htw : ∀ u, d.twitterImage = some u → strStarts u "/" = false)
    (hr : r ∈ extractImages d baseUrl) :
    strStarts r.src "/" = false := by
  unfold extractImages at hr
  rcases imgFold_mem baseUrl _ _ r hr with h | ⟨s, hs⟩
  · cases hfi : getFeaturedImage d with
    | none => rw [hfi] at h; simp at h
    | some f =>
      rw [hfi] at h
      simp only [List.mem_singleton] at h
      subst h
      rcases getFeaturedImage_src hfi with ⟨u, hu, hsrc⟩ | ⟨u, hu, hsrc⟩
      · rw [hsrc]; exact hog u hu
      · rw [hsrc]; exact htw u hu
  · rw [hs]; exact resolveSrc_not_root baseUrl s hb

/-- C7 witness: the root-relative reference `/img/p.png` is resolved
against the base URL, and the resulting record's URL does not begin
with `/`. -/
theorem image_url_root_resolved_witness :
    rootImgRecord.src = "https://www.nrinow.news/img/p.png" ∧
    strStarts rootImgRecord.src "/" = false :=
  ⟨rfl, image_url_root_resolved rootImgDom "https://www.nrinow.news/2025/x"
    rootImgRecord (by decide) (fun u h => nomatch h) (fun u h => nomatch h)
    (by decide)⟩

/-- C9 counterexample: a candidate comment of 7 characters (under 10)
survives into the returned list, refuting the claimed 10-character
threshold. -/
theorem short_comment_kept_counterexample :
    extractComments shortCommentsDom = [shortRecord] ∧
    shortRecord.kind ≠ CommentKind.metadata ∧
    shortRecord.text.length < 10 := by
  refine ⟨by decide, by decide, by decide⟩

/-- C9 (amended): the discard threshold is 5 characters, not 10: every
non-metadata record returned by the comment extractor has nonempty text
whose stripped length is at least 5 (candidates under 5 characters are
discarded). -/
theorem comment_min_length_five (d : CommentsDom) (r : CommentRecord)
    (hr : r ∈ extractComments d) (hk : r.kind ≠ CommentKind.metadata) :
    r.text ≠ "" ∧ 5 ≤ (strStrip r.text).length := by
  obtain ⟨ct, cm, hs, hl, items⟩ := d
  cases hs with
  | false =>
    simp [extractComments] at hr
    rw [hr] at hk
    exact absurd rfl hk
  | true =>
    cases hl with
    | false =>
      simp [extractComments] at hr
      rw [hr] at hk
      exact absurd rfl hk
    | true =>
      cases hf : items.foldl commentStep [] with
      | nil =>
        simp [extractComments, hf] at hr
        rw [hr] at hk
        exact absurd rfl hk
      | cons c cs =>
        have hr2 : r ∈ items.foldl commentStep [] := by
          rw [hf]
          simpa [extractComments, hf] using hr
        rcases commentFold_mem items [] r hr2 with h | h
        · simp at h
        · exact ⟨h.1, h.2.1⟩

/-- C9 witness: the threshold theorem applied to the concrete
7-character comment. -/
theorem comment_min_length_five_witness :
    shortRecord.text ≠ "" ∧ 5 ≤ (strStrip shortRecord.text).length :=
  comment_min_length_five shortCommentsDom shortRecord (by decide) (by decide)

end StealthScraper
